import Mathlib

/-!
Shallow embedding of the Radar_Designer computational core: the formula
library of `calculations.py` and the antenna pattern synthesizer of
`pages/12_Antenna_3D_Visualizer.py`.  Python floats are modelled as real
numbers; a function that can return the NaN sentinel returns `PyFloat`,
and `fresnel_radius_m`, whose square root can be handed a negative
argument, returns `FresnelResult` with an explicit constructor for the
ValueError that `math.sqrt` raises on negative input.
-/

open Real

noncomputable section

namespace RadarDesigner

/-- Result of a library function that either returns an ordinary float or
the NaN sentinel used for domain violations. -/
inductive PyFloat where
  | val (x : ℝ) : PyFloat
  | nan : PyFloat

/-- Outcome of `fresnel_radius_m`: an ordinary float, the NaN sentinel, or
the ValueError that `math.sqrt` raises when its argument is negative. -/
inductive FresnelResult where
  | val (x : ℝ) : FresnelResult
  | nan : FresnelResult
  | valueError : FresnelResult

/-- `fspl_db` from calculations.py: free-space path loss in dB. -/
def fspl_db (distance_km freq_ghz : ℝ) : PyFloat :=
  if distance_km ≤ 0 ∨ freq_ghz ≤ 0 then .nan
  else .val (32.45 + 20 * logb 10 distance_km + 20 * logb 10 (freq_ghz * 1000))

/-- `burn_through_range_km` from calculations.py. -/
def burn_through_range_km (tx_power_w tx_gain_dbi jammer_power_w jammer_gain_dbi
    wavelength_m rcs_m2 desired_js_db : ℝ) : PyFloat :=
  if tx_power_w ≤ 0 ∨ jammer_power_w ≤ 0 ∨ wavelength_m ≤ 0 ∨ rcs_m2 ≤ 0 then .nan
  else
    let pt_db := 10 * logb 10 tx_power_w
    let pj_db := 10 * logb 10 jammer_power_w
    let sigma_db := 10 * logb 10 rcs_m2
    let lambda_db := 20 * logb 10 wavelength_m
    let numerator_db := pt_db + 2 * tx_gain_dbi + sigma_db + lambda_db
    let denominator_db := pj_db + jammer_gain_dbi + 20 * logb 10 (4 * π) + desired_js_db
    let range_db := 0.25 * (numerator_db - denominator_db)
    .val ((10 : ℝ) ^ range_db / 1000)

/-- `beamwidth_gain_dbi` from calculations.py (rectangular 41253 model). -/
def beamwidth_gain_dbi (horizontal_bw_deg vertical_bw_deg efficiency : ℝ) : PyFloat :=
  if horizontal_bw_deg ≤ 0 ∨ vertical_bw_deg ≤ 0 ∨ efficiency ≤ 0 then .nan
  else .val (10 * logb 10 (efficiency * (41253 / (horizontal_bw_deg * vertical_bw_deg))))

/-- `math.radians`: degrees to radians. -/
def radians (x : ℝ) : ℝ := x * (π / 180)

/-- `beamwidth_gain_elliptical_dbi` from calculations.py: converts the
beamwidths to radians, takes `omega` as their product and returns
`10*log10(efficiency * 4π / omega)`. -/
def beamwidth_gain_elliptical_dbi (horizontal_bw_deg vertical_bw_deg efficiency : ℝ) : PyFloat :=
  if horizontal_bw_deg ≤ 0 ∨ vertical_bw_deg ≤ 0 ∨ efficiency ≤ 0 then .nan
  else
    let theta_az_rad := radians horizontal_bw_deg
    let theta_el_rad := radians vertical_bw_deg
    let omega := theta_az_rad * theta_el_rad
    .val (10 * logb 10 (efficiency * (4 * π) / omega))

/-- `fresnel_radius_m` from calculations.py.  The guard covers only
`distance_km` and `freq_ghz`; the zone number reaches `math.sqrt`
unchecked, and `math.sqrt` raises ValueError on a negative argument. -/
def fresnel_radius_m (distance_km freq_ghz : ℝ) (zone_number : ℤ) : FresnelResult :=
  if distance_km ≤ 0 ∨ freq_ghz ≤ 0 then .nan
  else
    let wavelength := 0.3 / freq_ghz
    let d_m := distance_km * 1000
    if (zone_number : ℝ) * wavelength * d_m / 2 < 0 then .valueError
    else .val (Real.sqrt ((zone_number : ℝ) * wavelength * d_m / 2))

/-- `earth_bulge_m` from calculations.py: no domain guard at all. -/
def earth_bulge_m (distance_km : ℝ) : PyFloat :=
  .val (distance_km ^ 2 / 12.75)

/-- `enob_from_sinad` from calculations.py (unguarded). -/
def enob_from_sinad (sinad_db : ℝ) : ℝ := (sinad_db - 1.76) / 6.02

/-- `sinad_from_enob` from calculations.py (unguarded). -/
def sinad_from_enob (enob_bits : ℝ) : ℝ := enob_bits * 6.02 + 1.76

/-- `gaussian_gain` from the visualizer: Gaussian mainlobe taper with the
-3 dB point at half the beamwidth; the beamwidth is floored at 1e-3. -/
def gaussian_gain (theta beamwidth_deg : ℝ) : ℝ :=
  let bw := max 1e-3 beamwidth_deg
  let theta0 := radians (bw / 2) / Real.sqrt (Real.log 2)
  Real.exp (-(theta / theta0) ^ 2)

/-- `beamwidth_from_aperture` from the visualizer (the source gives
`scale` the default value 70.0; here it is always passed explicitly). -/
def beamwidth_from_aperture (aperture_m wavelength_m scale : ℝ) : ℝ :=
  if aperture_m ≤ 0 ∨ wavelength_m ≤ 0 then 180
  else min 180 (max 1 (scale * wavelength_m / aperture_m))

/-- Python `a or b` on floats: `b` when `a` equals 0.0, else `a`
(used as `aperture_m or wavelength_m` in the visualizer). -/
def pyOr (a b : ℝ) : ℝ := if a = 0 then b else a

/-- The linear front-to-back factor `10 ** (-front_back_db / 10)`. -/
def fb_linear (front_back_db : ℝ) : ℝ := (10 : ℝ) ^ (-front_back_db / 10)

/-- The antenna types sharing the `sin²θ` dipole base shape. -/
def dipoleFamily : List String :=
  ["Halfwave dipole", "PCB dipole w/ reflector", "Folded dipole", "Biconical", "Rectangle loop"]

/-- One sample of the archetype-specific shape in `pattern_for_type`,
before the final front-to-back shaping and normalization.  All the numpy
operations in the source are elementwise, so the grid computation is the
pointwise map of this function over the (θ, φ) samples. -/
def archetypeSample (antenna_type : String) (wavelength_m aperture_m : ℝ) (element_count : ℤ)
    (front_back_db : ℝ) (s : ℝ × ℝ) : ℝ :=
  let theta := s.1
  let phi := s.2
  if antenna_type = "Isotropic radiator" then 1
  else if antenna_type ∈ dipoleFamily then
    let base := Real.sin theta ^ 2
    if antenna_type = "PCB dipole w/ reflector" then base * (1 + 0.5 * Real.cos phi)
    else if antenna_type = "Folded dipole" then base * 1.2
    else if antenna_type = "Biconical" then base ^ (0.8 : ℝ)
    else if antenna_type = "Rectangle loop" then Real.sin theta ^ 2 * (Real.cos theta ^ 2 + 0.3)
    else base
  else if antenna_type = "1/4 wave whip (monopole)" then
    let hemi := Real.sin theta ^ 2
    if theta ≤ π / 2 then hemi else hemi * fb_linear front_back_db
  else if antenna_type = "Patch antenna" ∨ antenna_type = "Tapered slot antenna" then
    let bw := beamwidth_from_aperture (pyOr aperture_m wavelength_m) wavelength_m 65
    gaussian_gain theta bw * (Real.cos phi ^ 2 + 0.3)
  else if antenna_type = "Pyramidal horn" ∨ antenna_type = "Conical horn" then
    let bw := beamwidth_from_aperture (pyOr aperture_m wavelength_m) wavelength_m 55
    gaussian_gain theta bw
  else if antenna_type = "Helix" then
    let bw := min 80 (52 * Real.sqrt (wavelength_m / max aperture_m wavelength_m))
    gaussian_gain theta bw
  else if antenna_type = "Yagi" then
    let bw := max 12 (100 / ((max element_count 1 : ℤ) : ℝ))
    gaussian_gain theta bw * (Real.cos phi ^ 2 + 0.5)
  else if antenna_type = "Parabolic antenna" then
    let bw := beamwidth_from_aperture (pyOr aperture_m wavelength_m) wavelength_m 70
    gaussian_gain theta bw
  else if antenna_type = "Phased array" then
    let bw := max 2 (50 * wavelength_m /
      max ((element_count : ℝ) * pyOr aperture_m wavelength_m) wavelength_m)
    gaussian_gain theta bw
  else if antenna_type = "Logarithmic-periodic dipole antenna" then
    gaussian_gain theta 60 * (0.7 + 0.3 * Real.cos phi ^ 2)
  else if antenna_type = "Lindenblad antenna" then
    Real.sin theta ^ 2 * 0.8 + 0.2
  else 1

/-- One sample after the final front-to-back shaping
`np.where(theta <= pi/2, pattern, pattern * fb_linear)`. -/
def shapedSample (antenna_type : String) (wavelength_m aperture_m : ℝ) (element_count : ℤ)
    (front_back_db : ℝ) (s : ℝ × ℝ) : ℝ :=
  let p := archetypeSample antenna_type wavelength_m aperture_m element_count front_back_db s
  if s.1 ≤ π / 2 then p else p * fb_linear front_back_db

/-- `np.max` over the samples of a grid, flattened to a list; numpy
rejects an empty array, and the visualizer grid is 90×181, so only the
nonempty cases are ever reached (the `[]` case is a junk value). -/
def npMax : List ℝ → ℝ
  | [] => 0
  | [x] => x
  | x :: y :: xs => max x (npMax (y :: xs))

/-- `pattern_for_type` from the visualizer, with the (θ, φ) grid
flattened to a list of samples: compute the shaped samples, then divide
by the peak when it is positive, otherwise return the grid unchanged. -/
def pattern_for_type (antenna_type : String) (grid : List (ℝ × ℝ)) (wavelength_m aperture_m : ℝ)
    (element_count : ℤ) (front_back_db : ℝ) : List ℝ :=
  let p := grid.map (shapedSample antenna_type wavelength_m aperture_m element_count front_back_db)
  let peak := npMax p
  if 0 < peak then p.map (fun x => x / peak) else p

end RadarDesigner

namespace RadarDesigner

/-- C1: the claim says every formula with a documented domain returns the
NaN sentinel at or below each documented lower bound, including the
Fresnel zone number.  Evaluating the code: with zone_number = -1 the
unguarded square root receives a negative argument and raises ValueError,
and with zone_number = 0 the function returns the ordinary float 0.0; in
neither case is the NaN sentinel returned. -/
theorem fresnel_zone_guard_eval :
    fresnel_radius_m 1 1 (-1) = FresnelResult.valueError ∧
    fresnel_radius_m 1 1 0 = FresnelResult.val 0 ∧
    fresnel_radius_m 1 1 (-1) ≠ FresnelResult.nan ∧
    fresnel_radius_m 1 1 0 ≠ FresnelResult.nan := by
  have h1 : fresnel_radius_m 1 1 (-1) = FresnelResult.valueError := by
    unfold fresnel_radius_m
    rw [if_neg (by norm_num), if_pos (by norm_num)]
  have h2 : fresnel_radius_m 1 1 0 = FresnelResult.val 0 := by
    unfold fresnel_radius_m
    rw [if_neg (by norm_num), if_neg (by norm_num)]
    norm_num
  refine ⟨h1, h2, ?_, ?_⟩
  · rw [h1]; intro h; exact FresnelResult.noConfusion h
  · rw [h2]; intro h; exact FresnelResult.noConfusion h

/-- C5: `fspl_db` computes `32.45 + 20·log10(R_km) + 20·log10(f_GHz·1000)`
on the positive domain, and `fspl_db 100 10` is 152.45 dB within 1e-6
(in fact exactly, in real arithmetic). -/
theorem fspl_formula_reference :
    (∀ d f : ℝ, 0 < d → 0 < f →
      fspl_db d f = .val (32.45 + 20 * logb 10 d + 20 * logb 10 (f * 1000))) ∧
    (∃ x : ℝ, fspl_db 100 10 = .val x ∧ |x - 152.45| ≤ 1e-6) := by
  have hform : ∀ d f : ℝ, 0 < d → 0 < f →
      fspl_db d f = .val (32.45 + 20 * logb 10 d + 20 * logb 10 (f * 1000)) := by
    intro d f hd hf
    unfold fspl_db
    rw [if_neg (by push_neg; exact ⟨hd, hf⟩)]
  refine ⟨hform, 152.45, ?_, by norm_num⟩
  have h100 : logb 10 (100 : ℝ) = 2 := by
    have : ((10 : ℝ) ^ (2 : ℝ)) = 100 := by
      rw [show (2 : ℝ) = ((2 : ℕ) : ℝ) by norm_num, rpow_natCast]; norm_num
    rw [← this, logb_rpow (by norm_num) (by norm_num)]
  have h10000 : logb 10 ((10 : ℝ) * 1000) = 4 := by
    have : ((10 : ℝ) ^ (4 : ℝ)) = 10 * 1000 := by
      rw [show (4 : ℝ) = ((4 : ℕ) : ℝ) by norm_num, rpow_natCast]; norm_num
    rw [← this, logb_rpow (by norm_num) (by norm_num)]
  rw [hform 100 10 (by norm_num) (by norm_num), h100, h10000]
  norm_num

/-- C5 witness: the formula instantiated at R = 2 km, f = 5 GHz. -/
theorem fspl_formula_reference_witness :
    fspl_db 2 5 = .val (32.45 + 20 * logb 10 2 + 20 * logb 10 (5 * 1000)) :=
  fspl_formula_reference.1 2 5 (by norm_num) (by norm_num)

/-- C7: the two ENOB/SINAD conversions are exact algebraic inverses, so
the round trip returns the input exactly, in particular within 1e-9. -/
theorem enob_sinad_roundtrip (e : ℝ) (he : 0 ≤ e) :
    enob_from_sinad (sinad_from_enob e) = e ∧
    |enob_from_sinad (sinad_from_enob e) - e| ≤ 1e-9 := by
  have heq : enob_from_sinad (sinad_from_enob e) = e := by
    unfold enob_from_sinad sinad_from_enob
    field_simp
  exact ⟨heq, by rw [heq, sub_self, abs_zero]; norm_num⟩

/-- C7 witness: the round trip at ENOB = 12. -/
theorem enob_sinad_roundtrip_witness :
    enob_from_sinad (sinad_from_enob 12) = 12 ∧
    |enob_from_sinad (sinad_from_enob 12) - 12| ≤ 1e-9 :=
  enob_sinad_roundtrip 12 (by norm_num)

/-- C9 counterexample: `earth_bulge_m` is not the only unguarded function
in the formula library.  `enob_from_sinad` and `sinad_from_enob` also have
no domain guard: at the concrete inputs SINAD = -100 dB and ENOB = -5 bits
they compute their linear formulas and return ordinary numeric values,
with no sentinel path at all. -/
theorem enob_unguarded_cex :
    enob_from_sinad (-100) = (-100 - 1.76) / 6.02 ∧
    sinad_from_enob (-5) = -5 * 6.02 + 1.76 :=
  ⟨rfl, rfl⟩

/-- C9 amended: `earth_bulge_m` has no domain guard: for every real
distance, including zero and negative values, it returns `d²/12.75`,
never the NaN sentinel, and the result is even in `d` and non-negative;
it is not unique in being unguarded, since `enob_from_sinad` and
`sinad_from_enob` likewise compute their formulas on every real input. -/
theorem earth_bulge_total (d : ℝ) :
    earth_bulge_m d = .val (d ^ 2 / 12.75) ∧
    earth_bulge_m (-d) = earth_bulge_m d ∧
    earth_bulge_m d ≠ PyFloat.nan ∧
    0 ≤ d ^ 2 / 12.75 ∧
    (∀ x : ℝ, enob_from_sinad x = (x - 1.76) / 6.02) ∧
    (∀ x : ℝ, sinad_from_enob x = x * 6.02 + 1.76) := by
  refine ⟨rfl, ?_, ?_, by positivity, fun x => rfl, fun x => rfl⟩
  · unfold earth_bulge_m
    rw [neg_pow, show ((-1 : ℝ) ^ 2) = 1 by norm_num, one_mul]
  · unfold earth_bulge_m
    intro h
    exact PyFloat.noConfusion h

/-- C10: `beamwidth_from_aperture` returns 180 when aperture or
wavelength is non-positive, `min 180 (max 1 (scale·λ/aperture))`
otherwise, and its value always lies in [1, 180]. -/
theorem beamwidth_from_aperture_clamped (a w s : ℝ) :
    ((a ≤ 0 ∨ w ≤ 0) → beamwidth_from_aperture a w s = 180) ∧
    (0 < a → 0 < w → beamwidth_from_aperture a w s = min 180 (max 1 (s * w / a))) ∧
    1 ≤ beamwidth_from_aperture a w s ∧ beamwidth_from_aperture a w s ≤ 180 := by
  unfold beamwidth_from_aperture
  by_cases h : a ≤ 0 ∨ w ≤ 0
  · rw [if_pos h]
    refine ⟨fun _ => rfl, fun ha hw => absurd h ?_, by norm_num, le_refl _⟩
    push_neg
    exact ⟨ha, hw⟩
  · rw [if_neg h]
    refine ⟨fun hc => absurd hc h, fun _ _ => rfl, ?_, min_le_left _ _⟩
    exact le_min (by norm_num) (le_max_left _ _)

/-- C10 witness: a non-positive aperture yields 180 degrees. -/
theorem beamwidth_from_aperture_clamped_witness :
    beamwidth_from_aperture (-1) 2 70 = 180 :=
  (beamwidth_from_aperture_clamped (-1) 2 70).1 (Or.inl (by norm_num))

/-- C4: on the positive domain `burn_through_range_km` is exactly
`10^(0.25·(num_db − den_db)) / 1000` with the documented dB-domain
numerator and denominator, and the end-to-end scenario yields a positive
value. -/
theorem burn_through_formula :
    (∀ pt gt pj gj lam sig js : ℝ, 0 < pt → 0 < pj → 0 < lam → 0 < sig →
      burn_through_range_km pt gt pj gj lam sig js =
        .val ((10 : ℝ) ^ (0.25 *
          ((10 * logb 10 pt + 2 * gt + 10 * logb 10 sig + 20 * logb 10 lam) -
           (10 * logb 10 pj + gj + 20 * logb 10 (4 * π) + js))) / 1000)) ∧
    (∃ x : ℝ, burn_through_range_km 5000 32 1000 10 0.03 1 0 = .val x ∧ 0 < x) := by
  have hform : ∀ pt gt pj gj lam sig js : ℝ, 0 < pt → 0 < pj → 0 < lam → 0 < sig →
      burn_through_range_km pt gt pj gj lam sig js =
        .val ((10 : ℝ) ^ (0.25 *
          ((10 * logb 10 pt + 2 * gt + 10 * logb 10 sig + 20 * logb 10 lam) -
           (10 * logb 10 pj + gj + 20 * logb 10 (4 * π) + js))) / 1000) := by
    intro pt gt pj gj lam sig js hpt hpj hlam hsig
    unfold burn_through_range_km
    rw [if_neg (by push_neg; exact ⟨hpt, hpj, hlam, hsig⟩)]
  refine ⟨hform, _, hform 5000 32 1000 10 0.03 1 0 (by norm_num) (by norm_num)
    (by norm_num) (by norm_num), ?_⟩
  positivity

/-- C4 witness: the scenario Pt=5000 W, Gt=32 dBi, Pj=1000 W, Gj=10 dBi,
λ=0.03 m, σ=1 m², J/S=0 dB instantiates the formula. -/
theorem burn_through_formula_witness :
    burn_through_range_km 5000 32 1000 10 0.03 1 0 =
      .val ((10 : ℝ) ^ (0.25 *
        ((10 * logb 10 5000 + 2 * 32 + 10 * logb 10 1 + 20 * logb 10 0.03) -
         (10 * logb 10 1000 + 10 + 20 * logb 10 (4 * π) + 0))) / 1000) :=
  burn_through_formula.1 5000 32 1000 10 0.03 1 0 (by norm_num) (by norm_num)
    (by norm_num) (by norm_num)

/-- On the positive domain the two gain models return the dB of their
linear arguments; shared by the C2 and C8 theorems. -/
theorem gain_linear_args (θa θe η : ℝ) (ha : 0 < θa) (he : 0 < θe) (hη : 0 < η) :
    beamwidth_gain_dbi θa θe η = .val (10 * logb 10 (η * (41253 / (θa * θe)))) ∧
    beamwidth_gain_elliptical_dbi θa θe η =
      .val (10 * logb 10 (η * (4 * π) / (radians θa * radians θe))) := by
  constructor
  · unfold beamwidth_gain_dbi
    rw [if_neg (by push_neg; exact ⟨ha, he, hη⟩)]
  · unfold beamwidth_gain_elliptical_dbi
    rw [if_neg (by push_neg; exact ⟨ha, he, hη⟩)]

/-- The elliptical-model linear argument rewritten over degrees. -/
theorem elliptical_arg_eq (θa θe η : ℝ) (ha : 0 < θa) (he : 0 < θe) :
    η * (4 * π) / (radians θa * radians θe) = η * (129600 / π) / (θa * θe) := by
  unfold radians
  have hπ : (π : ℝ) ≠ 0 := pi_ne_zero
  field_simp
  ring

/-- The dB gap between the two gain models is the input-independent
constant `10·log10(41253·π/129600)`. -/
theorem gain_gap_eq (θa θe η : ℝ) (ha : 0 < θa) (he : 0 < θe) (hη : 0 < η) :
    10 * logb 10 (η * (41253 / (θa * θe))) -
      10 * logb 10 (η * (4 * π) / (radians θa * radians θe)) =
      10 * logb 10 (41253 * π / 129600) := by
  have hπ : (0 : ℝ) < π := pi_pos
  have hxr : (0 : ℝ) < η * (41253 / (θa * θe)) := by positivity
  have hxe : (0 : ℝ) < η * (4 * π) / (radians θa * radians θe) := by
    rw [elliptical_arg_eq θa θe η ha he]
    positivity
  have hratio : (η * (41253 / (θa * θe))) / (η * (4 * π) / (radians θa * radians θe)) =
      41253 * π / 129600 := by
    rw [elliptical_arg_eq θa θe η ha he]
    field_simp
    ring
  calc 10 * logb 10 (η * (41253 / (θa * θe))) -
      10 * logb 10 (η * (4 * π) / (radians θa * radians θe))
      = 10 * (logb 10 (η * (41253 / (θa * θe))) -
        logb 10 (η * (4 * π) / (radians θa * radians θe))) := by ring
    _ = 10 * logb 10 ((η * (41253 / (θa * θe))) /
        (η * (4 * π) / (radians θa * radians θe))) := by
        rw [logb_div hxr.ne' hxe.ne']
    _ = 10 * logb 10 (41253 * π / 129600) := by rw [hratio]

/-- The constant gap is strictly positive (the rectangular model wins). -/
theorem gap_const_pos : 0 < 10 * logb 10 ((41253 : ℝ) * π / 129600) := by
  have h1 : (1 : ℝ) < 41253 * π / 129600 := by
    rw [lt_div_iff₀ (by norm_num : (0:ℝ) < 129600)]
    nlinarith [pi_gt_d6]
  have := logb_pos (by norm_num : (1:ℝ) < 10) h1
  linarith

/-- The constant gap is below 0.9 dB (it is about 4·10⁻⁶ dB). -/
theorem gap_const_lt : 10 * logb 10 ((41253 : ℝ) * π / 129600) < 0.9 := by
  have harg : (0 : ℝ) < 41253 * π / 129600 := by positivity
  have h11 : (41253 : ℝ) * π / 129600 < 1.1 := by
    rw [div_lt_iff₀ (by norm_num : (0:ℝ) < 129600)]
    nlinarith [pi_lt_d2]
  have hpow : ((10 : ℝ) ^ (0.09 : ℝ)) ^ (100 : ℕ) = (10 : ℝ) ^ (9 : ℕ) := by
    rw [← rpow_natCast ((10 : ℝ) ^ (0.09 : ℝ)) 100, ← rpow_mul (by norm_num : (0:ℝ) ≤ 10),
      show (0.09 : ℝ) * ((100 : ℕ) : ℝ) = ((9 : ℕ) : ℝ) by norm_num, rpow_natCast]
  have hrb : (1.1 : ℝ) < (10 : ℝ) ^ (0.09 : ℝ) := by
    have hlt : (1.1 : ℝ) ^ (100 : ℕ) < ((10 : ℝ) ^ (0.09 : ℝ)) ^ (100 : ℕ) := by
      rw [hpow]
      norm_num
    exact lt_of_pow_lt_pow_left₀ 100 (by positivity) hlt
  have hlog : logb 10 ((41253 : ℝ) * π / 129600) < 0.09 :=
    (logb_lt_iff_lt_rpow (by norm_num : (1:ℝ) < 10) harg).mpr (lt_trans h11 hrb)
  linarith

/-- C2 counterexample: at θ_az = θ_el = 3°, η = 0.55 the two models
return their dB values and the rectangular-minus-elliptical gap is
below 0.9 dB, so it is not approximately 0.9–1.1 dB. -/
theorem gain_model_gap_cex :
    beamwidth_gain_dbi 3 3 0.55 = .val (10 * logb 10 ((0.55 : ℝ) * (41253 / (3 * 3)))) ∧
    beamwidth_gain_elliptical_dbi 3 3 0.55 =
      .val (10 * logb 10 ((0.55 : ℝ) * (4 * π) / (radians 3 * radians 3))) ∧
    10 * logb 10 ((0.55 : ℝ) * (41253 / (3 * 3))) -
      10 * logb 10 ((0.55 : ℝ) * (4 * π) / (radians 3 * radians 3)) < 0.9 := by
  obtain ⟨h1, h2⟩ := gain_linear_args 3 3 0.55 (by norm_num) (by norm_num) (by norm_num)
  refine ⟨h1, h2, ?_⟩
  rw [gain_gap_eq 3 3 0.55 (by norm_num) (by norm_num) (by norm_num)]
  exact gap_const_lt

/-- C2 amended: for all beamwidths in (0°, 180°) and η > 0 the
rectangular-model gain is strictly greater than the elliptical-model
gain, but by the constant `10·log10(41253·π/129600)` dB (about
4·10⁻⁶ dB, below 0.9 dB), not by 0.9–1.1 dB. -/
theorem gain_model_ordering_amended (θa θe η : ℝ) (ha0 : 0 < θa) (ha1 : θa < 180)
    (he0 : 0 < θe) (he1 : θe < 180) (hη : 0 < η) :
    ∃ gr ge : ℝ, beamwidth_gain_dbi θa θe η = .val gr ∧
      beamwidth_gain_elliptical_dbi θa θe η = .val ge ∧
      ge < gr ∧ gr - ge = 10 * logb 10 (41253 * π / 129600) ∧
      gr - ge < 0.9 := by
  obtain ⟨h1, h2⟩ := gain_linear_args θa θe η ha0 he0 hη
  have hgap := gain_gap_eq θa θe η ha0 he0 hη
  refine ⟨_, _, h1, h2, ?_, hgap, ?_⟩
  · have := gap_const_pos
    linarith
  · rw [hgap]
    exact gap_const_lt

/-- C2 amended witness: the ordering at θ_az = θ_el = 3°, η = 0.55. -/
theorem gain_model_ordering_witness :
    ∃ gr ge : ℝ, beamwidth_gain_dbi 3 3 0.55 = .val gr ∧
      beamwidth_gain_elliptical_dbi 3 3 0.55 = .val ge ∧
      ge < gr ∧ gr - ge = 10 * logb 10 (41253 * π / 129600) ∧
      gr - ge < 0.9 :=
  gain_model_ordering_amended 3 3 0.55 (by norm_num) (by norm_num) (by norm_num)
    (by norm_num) (by norm_num)

/-- C8: with θ_el and η fixed and positive, both gain models are
strictly decreasing in the azimuth beamwidth: θ1 < θ2 gives a strictly
larger gain at θ1 for the rectangular and the elliptical model. -/
theorem gain_monotone_in_azimuth (θe η θ1 θ2 : ℝ) (he : 0 < θe) (hη : 0 < η)
    (h1 : 0 < θ1) (h12 : θ1 < θ2) :
    ∃ r1 r2 e1 e2 : ℝ,
      beamwidth_gain_dbi θ1 θe η = .val r1 ∧ beamwidth_gain_dbi θ2 θe η = .val r2 ∧
      beamwidth_gain_elliptical_dbi θ1 θe η = .val e1 ∧
      beamwidth_gain_elliptical_dbi θ2 θe η = .val e2 ∧ r2 < r1 ∧ e2 < e1 := by
  have h2 : 0 < θ2 := lt_trans h1 h12
  obtain ⟨ha1, hb1⟩ := gain_linear_args θ1 θe η h1 he hη
  obtain ⟨ha2, hb2⟩ := gain_linear_args θ2 θe η h2 he hη
  refine ⟨_, _, _, _, ha1, ha2, hb1, hb2, ?_, ?_⟩
  · have hargs : η * (41253 / (θ2 * θe)) < η * (41253 / (θ1 * θe)) := by
      apply mul_lt_mul_of_pos_left _ hη
      exact div_lt_div_of_pos_left (by norm_num) (by positivity)
        (mul_lt_mul_of_pos_right h12 he)
    have := logb_lt_logb (b := 10) (by norm_num) (by positivity) hargs
    linarith
  · have hr1 : 0 < radians θ1 := by unfold radians; positivity
    have hr2 : 0 < radians θ2 := by unfold radians; positivity
    have hre : 0 < radians θe := by unfold radians; positivity
    have hrad : radians θ1 * radians θe < radians θ2 * radians θe := by
      apply mul_lt_mul_of_pos_right _ hre
      unfold radians
      exact mul_lt_mul_of_pos_right h12 (by positivity)
    have hargs : η * (4 * π) / (radians θ2 * radians θe) <
        η * (4 * π) / (radians θ1 * radians θe) :=
      div_lt_div_of_pos_left (by positivity) (mul_pos hr1 hre) hrad
    have := logb_lt_logb (b := 10) (by norm_num) (by positivity) hargs
    linarith

/-- Helper: `getD` at an in-range index is the indexed element. -/
theorem getD_eq_elem {α : Type} (l : List α) (d : α) {n : ℕ} (h : n < l.length) :
    l.getD n d = l[n] := by
  rw [List.getD_eq_getElem?_getD, List.getElem?_eq_getElem h, Option.getD_some]

/-- Helper: `getD` after a map over sample pairs, at an in-range index. -/
theorem getD_map_pair (l : List (ℝ × ℝ)) (g : ℝ × ℝ → ℝ) {i : ℕ} (h : i < l.length) :
    (l.map g).getD i 0 = g (l.getD i ((0 : ℝ), (0 : ℝ))) := by
  rw [getD_eq_elem _ _ (by simpa using h), getD_eq_elem _ _ h, List.getElem_map]

/-- Helper: `getD` after a map over reals, at an in-range index. -/
theorem getD_map_real (l : List ℝ) (g : ℝ → ℝ) {i : ℕ} (h : i < l.length) :
    (l.map g).getD i 0 = g (l.getD i 0) := by
  rw [getD_eq_elem _ _ (by simpa using h), getD_eq_elem _ _ h, List.getElem_map]

/-- Helper: every member of a list is bounded by `npMax`. -/
theorem le_npMax {l : List ℝ} {x : ℝ} (hx : x ∈ l) : x ≤ npMax l := by
  induction l with
  | nil => exact absurd hx (List.not_mem_nil x)
  | cons a t ih =>
    cases t with
    | nil =>
      have hxa : x = a := List.mem_singleton.mp hx
      simp [npMax, hxa]
    | cons b u =>
      rcases List.mem_cons.mp hx with h | h
      · rw [h]
        simp only [npMax]
        exact le_max_left _ _
      · calc x ≤ npMax (b :: u) := ih h
          _ ≤ npMax (a :: b :: u) := by simp only [npMax]; exact le_max_right _ _

/-- Helper: `npMax` commutes with division by a positive constant. -/
theorem npMax_map_div (l : List ℝ) (c : ℝ) (hc : 0 < c) :
    npMax (l.map (fun x => x / c)) = npMax l / c := by
  induction l with
  | nil => simp [npMax]
  | cons a t ih =>
    cases t with
    | nil => simp [npMax]
    | cons b u =>
      simp only [List.map_cons] at ih ⊢
      simp only [npMax] at ih ⊢
      rw [ih]
      exact max_div_div_right hc.le a (npMax (b :: u))

/-- The Gaussian taper is strictly positive everywhere. -/
theorem gaussian_gain_pos (theta bw : ℝ) : 0 < gaussian_gain theta bw := by
  unfold gaussian_gain
  exact Real.exp_pos _

/-- The linear front-to-back factor is strictly positive. -/
theorem fb_linear_pos (fb : ℝ) : 0 < fb_linear fb :=
  Real.rpow_pos_of_pos (by norm_num) _

/-- The front-to-back factor at 10 dB is exactly one tenth. -/
theorem fb_linear_ten : fb_linear 10 = 1 / 10 := by
  unfold fb_linear
  rw [show -(10 : ℝ) / 10 = ((-1 : ℤ) : ℝ) by norm_num, rpow_intCast]
  norm_num

/-- Helper: a conditional of two non-negative reals is non-negative. -/
theorem ite_nonneg {c : Prop} [Decidable c] {a b : ℝ} (ha : 0 ≤ a) (hb : 0 ≤ b) :
    0 ≤ if c then a else b := by
  split_ifs <;> assumption

/-- Every archetype shape sample is non-negative. -/
theorem archetypeSample_nonneg (t : String) (lam ap : ℝ) (n : ℤ) (fb : ℝ) (s : ℝ × ℝ) :
    0 ≤ archetypeSample t lam ap n fb s := by
  have hsin : (0 : ℝ) ≤ Real.sin s.1 ^ 2 := sq_nonneg _
  have hcosφ : (0 : ℝ) ≤ 1 + 0.5 * Real.cos s.2 := by nlinarith [Real.neg_one_le_cos s.2]
  have hfb : (0 : ℝ) ≤ fb_linear fb := (fb_linear_pos fb).le
  unfold archetypeSample
  dsimp only
  repeat' apply ite_nonneg
  all_goals first
    | exact hsin
    | exact mul_nonneg hsin hcosφ
    | exact Real.rpow_nonneg hsin _
    | exact mul_nonneg hsin hfb
    | (apply mul_nonneg hsin; positivity)
    | (apply mul_nonneg (gaussian_gain_pos _ _).le; positivity)
    | exact (gaussian_gain_pos _ _).le
    | positivity

/-- Every sample after front-to-back shaping is non-negative. -/
theorem shapedSample_nonneg (t : String) (lam ap : ℝ) (n : ℤ) (fb : ℝ) (s : ℝ × ℝ) :
    0 ≤ shapedSample t lam ap n fb s := by
  have hp := archetypeSample_nonneg t lam ap n fb s
  have hfb : (0 : ℝ) ≤ fb_linear fb := (fb_linear_pos fb).le
  unfold shapedSample
  dsimp only
  exact ite_nonneg hp (mul_nonneg hp hfb)

/-- C3: for every archetype string and every parameter combination with a
positive wavelength, when the computed grid has a positive peak the
returned pattern has all samples in [0, 1] with maximum exactly 1 (each
sample divided by the grid's own maximum); when the computed peak is not
positive, the unnormalized grid is returned unchanged. -/
theorem pattern_normalization (t : String) (grid : List (ℝ × ℝ)) (lam ap : ℝ) (n : ℤ)
    (fb : ℝ) (hlam : 0 < lam) :
    (0 < npMax (grid.map (shapedSample t lam ap n fb)) →
      (∀ x ∈ pattern_for_type t grid lam ap n fb, 0 ≤ x ∧ x ≤ 1) ∧
      npMax (pattern_for_type t grid lam ap n fb) = 1) ∧
    (npMax (grid.map (shapedSample t lam ap n fb)) ≤ 0 →
      pattern_for_type t grid lam ap n fb = grid.map (shapedSample t lam ap n fb)) := by
  constructor
  · intro hpk
    have hunf : pattern_for_type t grid lam ap n fb =
        (grid.map (shapedSample t lam ap n fb)).map
          (fun x => x / npMax (grid.map (shapedSample t lam ap n fb))) := by
      simp only [pattern_for_type]
      rw [if_pos hpk]
    constructor
    · intro x hx
      rw [hunf] at hx
      obtain ⟨y, hy, rfl⟩ := List.mem_map.mp hx
      have hy0 : 0 ≤ y := by
        obtain ⟨s, _, rfl⟩ := List.mem_map.mp hy
        exact shapedSample_nonneg t lam ap n fb s
      exact ⟨div_nonneg hy0 hpk.le, (div_le_one hpk).mpr (le_npMax hy)⟩
    · rw [hunf, npMax_map_div _ _ hpk, div_self hpk.ne']
  · intro hpk
    simp only [pattern_for_type]
    rw [if_neg (not_lt.mpr hpk)]

/-- The isotropic archetype sample: 1 in front, `fb_linear` behind. -/
theorem shaped_iso (lam ap : ℝ) (n : ℤ) (fb : ℝ) (s : ℝ × ℝ) :
    shapedSample "Isotropic radiator" lam ap n fb s =
      if s.1 ≤ π / 2 then 1 else 1 * fb_linear fb := rfl

/-- C3 witness: the normalized isotropic pattern on a one-sample grid has
maximum exactly 1. -/
theorem pattern_normalization_witness :
    0 < (0.03 : ℝ) ∧
    npMax (pattern_for_type "Isotropic radiator" [((0 : ℝ), (0 : ℝ))] 0.03 0.03 8 10) = 1 := by
  have h1 : shapedSample "Isotropic radiator" 0.03 0.03 8 10 ((0 : ℝ), (0 : ℝ)) = 1 := by
    rw [shaped_iso]
    dsimp only
    rw [if_pos (by positivity)]
  have hpk : 0 < npMax ([((0 : ℝ), (0 : ℝ))].map (shapedSample "Isotropic radiator" 0.03 0.03 8 10)) := by
    rw [List.map_cons, List.map_nil, h1]
    simp [npMax]
  exact ⟨by norm_num,
    ((pattern_normalization "Isotropic radiator" [((0 : ℝ), (0 : ℝ))] 0.03 0.03 8 10
      (by norm_num)).1 hpk).2⟩

/-- The halfwave-dipole sample is `sin²θ`, attenuated by the linear
front-to-back factor in the rear hemisphere. -/
theorem shaped_dipole (lam ap : ℝ) (n : ℤ) (fb : ℝ) (s : ℝ × ℝ) :
    shapedSample "Halfwave dipole" lam ap n fb s =
      if s.1 ≤ π / 2 then Real.sin s.1 ^ 2 else Real.sin s.1 ^ 2 * fb_linear fb := rfl

/-- C6 counterexample: on the dipole grid containing θ = 0, θ = π/2 and
θ = π with front_back_db = 10, the normalized pattern is [0, 1, 0]; the
θ = 0 and θ = π samples are both 0 (the dipole is null along its axis),
so their ratio is not 10. -/
theorem dipole_front_back_cex :
    pattern_for_type "Halfwave dipole" [((0 : ℝ), 0), (π / 2, 0), (π, 0)] 0.03 0.03 8 10 =
      [0, 1, 0] ∧
    (pattern_for_type "Halfwave dipole" [((0 : ℝ), 0), (π / 2, 0), (π, 0)] 0.03 0.03 8 10).getD 0 0 /
      (pattern_for_type "Halfwave dipole" [((0 : ℝ), 0), (π / 2, 0), (π, 0)] 0.03 0.03 8 10).getD 2 0
      ≠ 10 := by
  have h0 : shapedSample "Halfwave dipole" 0.03 0.03 8 10 ((0 : ℝ), 0) = 0 := by
    rw [shaped_dipole, if_pos (by positivity)]
    simp
  have h1 : shapedSample "Halfwave dipole" 0.03 0.03 8 10 ((π / 2 : ℝ), 0) = 1 := by
    rw [shaped_dipole, if_pos (le_refl _)]
    simp [Real.sin_pi_div_two]
  have h2 : shapedSample "Halfwave dipole" 0.03 0.03 8 10 ((π : ℝ), 0) = 0 := by
    rw [shaped_dipole, if_neg (not_le.mpr (by linarith [pi_pos]))]
    simp [Real.sin_pi]
  have hmap : List.map (shapedSample "Halfwave dipole" 0.03 0.03 8 10)
      [((0 : ℝ), 0), (π / 2, 0), (π, 0)] = [0, 1, 0] := by
    rw [List.map_cons, List.map_cons, List.map_cons, List.map_nil, h0, h1, h2]
  have hlist : pattern_for_type "Halfwave dipole" [((0 : ℝ), 0), (π / 2, 0), (π, 0)] 0.03 0.03 8 10 =
      [0, 1, 0] := by
    simp only [pattern_for_type, hmap]
    rw [show npMax [0, 1, 0] = 1 by simp [npMax], if_pos (by norm_num : (0:ℝ) < 1)]
    norm_num
  refine ⟨hlist, ?_⟩
  rw [hlist]
  norm_num [List.getD]

/-- C6 amended: for the dipole archetype with front_back_db = 10, the
front-to-back ratio of 10 is observed between any interior front-hemisphere
angle 0 < θ < π/2 and its mirrored rear angle π − θ: the ratio of the
normalized sample at θ to the normalized sample at π − θ is exactly 10. -/
theorem dipole_front_back_amended (grid : List (ℝ × ℝ)) (lam ap : ℝ) (n : ℤ)
    (i j : ℕ) (θ φi φj : ℝ) (hi : i < grid.length) (hj : j < grid.length)
    (hgi : grid.getD i ((0 : ℝ), (0 : ℝ)) = (θ, φi))
    (hgj : grid.getD j ((0 : ℝ), (0 : ℝ)) = (π - θ, φj))
    (hθ0 : 0 < θ) (hθ2 : θ < π / 2) :
    (pattern_for_type "Halfwave dipole" grid lam ap n 10).getD i 0 /
      (pattern_for_type "Halfwave dipole" grid lam ap n 10).getD j 0 = 10 := by
  have hsin : 0 < Real.sin θ :=
    Real.sin_pos_of_pos_of_lt_pi hθ0 (by linarith [pi_pos])
  have ha : (0 : ℝ) < Real.sin θ ^ 2 := by positivity
  have hi2 : i < (grid.map (shapedSample "Halfwave dipole" lam ap n 10)).length := by
    simpa using hi
  have hj2 : j < (grid.map (shapedSample "Halfwave dipole" lam ap n 10)).length := by
    simpa using hj
  have hpi : (grid.map (shapedSample "Halfwave dipole" lam ap n 10)).getD i 0 =
      Real.sin θ ^ 2 := by
    rw [getD_map_pair _ _ hi, hgi, shaped_dipole]
    dsimp only
    rw [if_pos hθ2.le]
  have hpj : (grid.map (shapedSample "Halfwave dipole" lam ap n 10)).getD j 0 =
      Real.sin θ ^ 2 * (1 / 10) := by
    rw [getD_map_pair _ _ hj, hgj, shaped_dipole]
    dsimp only
    rw [if_neg (not_le.mpr (by linarith : (π : ℝ) / 2 < π - θ)), Real.sin_pi_sub, fb_linear_ten]
  have hmem : Real.sin θ ^ 2 ∈ grid.map (shapedSample "Halfwave dipole" lam ap n 10) := by
    rw [← hpi, getD_eq_elem _ _ hi2]
    exact List.getElem_mem _
  have hpk : 0 < npMax (grid.map (shapedSample "Halfwave dipole" lam ap n 10)) :=
    lt_of_lt_of_le ha (le_npMax hmem)
  have hr : pattern_for_type "Halfwave dipole" grid lam ap n 10 =
      (grid.map (shapedSample "Halfwave dipole" lam ap n 10)).map
        (fun x => x / npMax (grid.map (shapedSample "Halfwave dipole" lam ap n 10))) := by
    simp only [pattern_for_type]
    rw [if_pos hpk]
  rw [hr, getD_map_real _ _ hi2, getD_map_real _ _ hj2, hpi, hpj,
    div_div_div_cancel_right₀ hpk.ne']
  rw [mul_one_div, div_div_eq_mul_div, mul_comm, mul_div_assoc, div_self ha.ne', mul_one]

/-- C6 amended witness: θ = π/4 against its mirror 3π/4 on a two-sample
dipole grid gives the ratio 10. -/
theorem dipole_front_back_amended_witness :
    (pattern_for_type "Halfwave dipole" [((π / 4 : ℝ), 0), (π - π / 4, 0)] 0.03 0.03 8 10).getD 0 0 /
      (pattern_for_type "Halfwave dipole" [((π / 4 : ℝ), 0), (π - π / 4, 0)] 0.03 0.03 8 10).getD 1 0
      = 10 :=
  dipole_front_back_amended [((π / 4 : ℝ), 0), (π - π / 4, 0)] 0.03 0.03 8 0 1 (π / 4) 0 0
    (by norm_num) (by norm_num) rfl rfl (by positivity) (by linarith [pi_pos])

/-- C8 witness: narrowing azimuth from 4° to 2° at θ_el = 3°, η = 0.55
strictly raises both gains. -/
theorem gain_monotone_in_azimuth_witness :
    ∃ r1 r2 e1 e2 : ℝ,
      beamwidth_gain_dbi 2 3 0.55 = .val r1 ∧ beamwidth_gain_dbi 4 3 0.55 = .val r2 ∧
      beamwidth_gain_elliptical_dbi 2 3 0.55 = .val e1 ∧
      beamwidth_gain_elliptical_dbi 4 3 0.55 = .val e2 ∧ r2 < r1 ∧ e2 < e1 :=
  gain_monotone_in_azimuth 3 0.55 2 4 (by norm_num) (by norm_num) (by norm_num) (by norm_num)

end RadarDesigner
